import Mathlib

/-!
# Verification of the BrainstormCanvas graph engine

Shallow embedding of the interactive force-directed mind-map engine
(`BrainstormCanvas`) and of the bundled expansion-provider wrapper
(`expandBrainstormNode` in the services module).  Numeric values are
modelled over `ℚ`; `Math.sqrt` (whose result feeds the physics formulas)
is abstracted as an explicit function parameter, and text measurement
(`ctx.measureText(...).width`) as a parameter `mw`, exactly as the layout
routine receives it from its drawing context.
-/

namespace CaseCraft

/-- Node kind: the tagged variant `'text' | 'image'` of `MindMapNode.type`. -/
inductive NodeType where
  | text
  | image
  deriving DecidableEq, Repr, Inhabited

/-- Association category: `'up' | 'side' | 'down' | 'root'`. -/
inductive AssocType where
  | root
  | up
  | side
  | down
  deriving DecidableEq, Repr, Inhabited

/-- The `MindMapNode` interface from the shared types module.
Optional fields carry their JS-falsy defaults. -/
structure MindMapNode where
  id : String
  text : String
  type : NodeType
  imageUrl : Option String := none
  level : Nat
  children : List String := []
  parentId : Option String := none
  isLoading : Bool := false
  isSelected : Bool := false
  isMarked : Bool := false
  associationType : AssocType
  deriving DecidableEq, Repr, Inhabited

/-- `PhysicsNode extends MindMapNode` with position, velocity, radius,
color and the drag flag. -/
structure PhysicsNode extends MindMapNode where
  x : ℚ
  y : ℚ
  vx : ℚ
  vy : ℚ
  radius : ℚ
  color : String
  isDragging : Bool := false
  deriving DecidableEq, Repr, Inhabited

/-- A directed link `(source, target, strength)`, endpoints named by node id. -/
structure PhysicsLink where
  source : String
  target : String
  strength : ℚ
  deriving DecidableEq, Repr, Inhabited

/-- Viewport transform: pan offset `(x, y)` and zoom scale `k`. -/
structure Transform where
  x : ℚ
  y : ℚ
  k : ℚ
  deriving DecidableEq, Repr, Inhabited

/-- Toast severity: `'warning' | 'error'`. -/
inductive ToastType where
  | warning
  | error
  deriving DecidableEq, Repr, Inhabited

/-- A transient toast notification `{message, type}`. -/
structure Toast where
  message : String
  type : ToastType
  deriving DecidableEq, Repr, Inhabited

-- Color constants (`COLORS`).
def COLORS_root : String := "#4f46e5"
def COLORS_up : String := "#60a5fa"
def COLORS_side : String := "#a78bfa"
def COLORS_down : String := "#94a3b8"
def COLORS_image : String := "#f43f5e"

-- Base radii (`BASE_RADIUS`).
def BASE_RADIUS_root : ℚ := 45
def BASE_RADIUS_level1 : ℚ := 35
def BASE_RADIUS_normal : ℚ := 28
def BASE_RADIUS_image : ℚ := 40

-- Physics tuning constants (`PHYSICS`).
def FRICTION : ℚ := 1/2
def REPULSION : ℚ := 1000
def LINK_STRENGTH : ℚ := 8/1000
def LINK_DISTANCE : ℚ := 260
def CENTER_GRAVITY : ℚ := 1/10000
def STOP_THRESHOLD : ℚ := 2

/-- Delay (ms) of the toast auto-dismiss timer (`setTimeout(..., 4000)`). -/
def TOAST_DISMISS_MS : Nat := 4000

/-- The whole mutable engine state held in refs by the component, together
with the externally observable outputs: the toast overlay, the image info
modal, and the list of snapshots published through `setNodes`
(`syncNodesToGlobal`). -/
structure EngineState where
  nodes : List PhysicsNode := []
  links : List PhysicsLink := []
  transform : Transform := ⟨0, 0, 1⟩
  simulationActive : Bool := true
  toast : Option Toast := none
  infoNode : Option MindMapNode := none
  isInitializing : Bool := false
  published : List (List PhysicsNode) := []
  deriving DecidableEq, Repr, Inhabited

/-- `syncNodesToGlobal`: publish a snapshot of the full current node list
(`setNodes([...nodesRef.current])`). -/
def syncNodesToGlobal (s : EngineState) : EngineState :=
  { s with published := s.published ++ [s.nodes] }

/-- Update the first list element satisfying `p` (this is how an in-place JS
mutation of the object located by `Array.prototype.find` acts on the array). -/
def updateFirst (p : α → Bool) (f : α → α) : List α → List α
  | [] => []
  | a :: l => if p a then f a :: l else a :: updateFirst p f l

/-- `handleWheel`: `delta = -e.deltaY * 0.001`; the new scale is
`Math.max(0.1, Math.min(5, k + delta))`; pan is untouched. -/
def handleWheel (t : Transform) (deltaY : ℚ) : Transform :=
  let delta := -deltaY * (1/1000)
  { t with k := max (1/10) (min 5 (t.k + delta)) }

/-- Toolbar zoom-in button: `transformRef.current.k *= 1.2`. -/
def zoomInBtn (t : Transform) : Transform :=
  { t with k := t.k * (12/10) }

/-- Toolbar zoom-out button: `transformRef.current.k *= 0.8`. -/
def zoomOutBtn (t : Transform) : Transform :=
  { t with k := t.k * (8/10) }

/-- Toolbar reset button: `transformRef.current = {x:0, y:0, k:1}`. -/
def resetViewBtn (_t : Transform) : Transform := ⟨0, 0, 1⟩

/-- Firing of the toast auto-dismiss timer: `setToast(null)`. -/
def toastTimerFire (s : EngineState) : EngineState :=
  { s with toast := none }

/-- JS `String.prototype.trim`, charwise (the library `String.trim` does not
reduce in the kernel; this one does and agrees with it). -/
def jsTrim (s : String) : String :=
  String.mk (((s.data.dropWhile Char.isWhitespace).reverse.dropWhile
    Char.isWhitespace).reverse)

/-- The structured `{up, side, down}` response of the Expansion Provider. -/
structure AssociationResponse where
  up : List String
  side : List String
  down : List String
  deriving DecidableEq, Repr, Inhabited

/-- `createPhysicsNode`: base radius and color from level / kind /
association category, then the adaptive-radius growth
`r = min(r + sqrt(textLen) * 6, 90)` when the label is longer than 6
characters.  `sq` abstracts `Math.sqrt`. -/
def createPhysicsNode (sq : ℚ → ℚ) (node : MindMapNode) (x y : ℚ) : PhysicsNode :=
  let rc : ℚ × String :=
    if node.level = 0 then (BASE_RADIUS_root, COLORS_root)
    else if node.type = NodeType.image then (BASE_RADIUS_image, COLORS_image)
    else if node.associationType = AssocType.up then (BASE_RADIUS_normal, COLORS_up)
    else if node.associationType = AssocType.side then (BASE_RADIUS_normal, COLORS_side)
    else (BASE_RADIUS_normal, COLORS_down)
  let textLen := node.text.length
  let r := if textLen > 6 then min (rc.1 + sq (textLen : ℚ) * 6) 90 else rc.1
  { toMindMapNode := node, x := x, y := y, vx := 0, vy := 0,
    radius := r, color := rc.2, isDragging := false }

/-- Synchronous prefix of `expandNode` (up to issuing the provider call):
resolve the node by id in the current store, return unchanged on a missing
id, on `isLoading`, or on an existing outgoing link; otherwise set
`isLoading`, wake the simulation, and return the id of the issued call. -/
def expandNodeStart (s : EngineState) (nodeId : String) : EngineState × Option String :=
  match s.nodes.find? (fun n => n.id == nodeId) with
  | none => (s, none)
  | some currentNode =>
    let hasChildren := s.links.any (fun l => l.source == currentNode.id)
    if currentNode.isLoading || hasChildren then (s, none)
    else
      ({ s with
          nodes := updateFirst (fun n => n.id == nodeId)
            (fun n => { n with isLoading := true }) s.nodes,
          simulationActive := true },
        some currentNode.id)

/-- Child node id: `` `${currentNode.id}-${type}-${idx}-${Date.now()}` ``. -/
def childId (pid tag : String) (idx now : Nat) : String :=
  pid ++ "-" ++ tag ++ "-" ++ toString idx ++ "-" ++ toString now

/-- The string tag of an association category. -/
def tagStr : AssocType → String
  | AssocType.root => "root"
  | AssocType.up => "up"
  | AssocType.side => "side"
  | AssocType.down => "down"

/-- Body of `processGroup` inside `expandNode`: one child `MindMapNode` per
returned string, carrying the running index. -/
def processGroupGo (pid : String) (plevel : Nat) (tag : AssocType) (now : Nat) :
    Nat → List String → List MindMapNode
  | _, [] => []
  | idx, t :: ts =>
    { id := childId pid (tagStr tag) idx now
      text := t
      type := NodeType.text
      level := plevel + 1
      children := []
      parentId := some pid
      associationType := tag } :: processGroupGo pid plevel tag now (idx + 1) ts

/-- `processGroup(texts, tag)`. -/
def processGroup (pid : String) (plevel : Nat) (tag : AssocType) (now : Nat)
    (texts : List String) : List MindMapNode :=
  processGroupGo pid plevel tag now 0 texts

/-- The `newNodesData` list built by the completion handler: the three groups
in order `up`, `side`, `down` (missing groups behave as `[]`). -/
def newNodesData (pid : String) (plevel : Nat) (now : Nat)
    (r : AssociationResponse) : List MindMapNode :=
  processGroup pid plevel AssocType.up now r.up ++
  processGroup pid plevel AssocType.side now r.side ++
  processGroup pid plevel AssocType.down now r.down

/-- Spawning of the new physics nodes around the parent.  `place i total` is
the spawn offset of the `i`-th child (the source computes it from
`Math.cos`, `Math.sin` and `Math.random` on a circle of radius
`LINK_DISTANCE * 0.8`; the claims do not constrain the positions, so the
offset function is a parameter). -/
def spawnGo (sq : ℚ → ℚ) (place : Nat → Nat → ℚ × ℚ) (px py : ℚ) (total : Nat) :
    Nat → List MindMapNode → List PhysicsNode
  | _, [] => []
  | i, n :: ns =>
    createPhysicsNode sq n (px + (place i total).1) (py + (place i total).2) ::
      spawnGo sq place px py total (i + 1) ns

/-- `newPNodes = newNodesData.map(...)` with positions around the parent. -/
def newPhysicsNodes (sq : ℚ → ℚ) (place : Nat → Nat → ℚ × ℚ) (px py : ℚ)
    (data : List MindMapNode) : List PhysicsNode :=
  spawnGo sq place px py data.length 0 data

/-- Completion handler of `expandNode`, resumed after the awaited provider
call.  `captured` is the state of the `currentNode` object reference that the
closure held across the `await` (the source does *not* re-resolve it by id at
this point); `s` is the store at completion time.  On success the children
and links are appended and the referenced object's `children` and `isLoading`
fields are written (visible in the store only where a node with the captured
id is present); on rejection the error toast is set; in both cases
`isLoading` is cleared on the referenced object and a snapshot is
published (`finally`). -/
def expandNodeComplete (sq : ℚ → ℚ) (place : Nat → Nat → ℚ × ℚ)
    (s : EngineState) (captured : PhysicsNode)
    (result : Except String AssociationResponse) (now : Nat) : EngineState :=
  match result with
  | Except.error msg =>
    let s1 := { s with toast := some ⟨"扩展失败: " ++ msg, ToastType.error⟩ }
    let cleared := updateFirst (fun n => n.id == captured.id)
      (fun n => { n with isLoading := false }) s1.nodes
    syncNodesToGlobal { s1 with nodes := cleared }
  | Except.ok r =>
    let data := newNodesData captured.id captured.level now r
    let s1 := if data.length = 0 then
        { s with toast := some ⟨"没有联想出新词汇", ToastType.warning⟩ } else s
    let pNodes := newPhysicsNodes sq place captured.x captured.y data
    let newLinks := pNodes.map (fun n => PhysicsLink.mk captured.id n.id 1)
    let s2 := { s1 with nodes := s1.nodes ++ pNodes, links := s1.links ++ newLinks }
    let written := updateFirst (fun n => n.id == captured.id)
      (fun n => { n with children := data.map (fun m => m.id), isLoading := false })
      s2.nodes
    syncNodesToGlobal { s2 with nodes := written }

/-- Synchronous part of `startRoot`: bail out on blank text, otherwise reset
the store and viewport, create the level-0 root at the origin and run the
synchronous prefix of the awaited `expandNode` call on it. -/
def startRootStart (sq : ℚ → ℚ) (s : EngineState) (text : String) (now : Nat) :
    EngineState × Option String :=
  if jsTrim text == "" then (s, none)
  else
    let rootData : MindMapNode :=
      { id := "root-" ++ toString now
        text := text
        type := NodeType.text
        level := 0
        children := []
        isSelected := true
        isLoading := false
        associationType := AssocType.root }
    let rootP := createPhysicsNode sq rootData 0 0
    let s1 : EngineState :=
      { s with nodes := [rootP], links := [], transform := ⟨0, 0, 1⟩,
               simulationActive := true, isInitializing := true }
    expandNodeStart s1 rootP.id

/-- `finally` block of `startRoot`: clear the initializing flag and publish. -/
def startRootFinish (s : EngineState) : EngineState :=
  syncNodesToGlobal { s with isInitializing := false }

/-- The pointer-interaction refs: `isDragging`, `dragNode` (the object
reference, i.e. its current state), and `startDragPos` in screen space. -/
structure InteractState where
  isDragging : Bool := false
  dragNode : Option PhysicsNode := none
  startDragPos : ℚ × ℚ := (0, 0)
  deriving Repr, Inhabited

/-- The fields of the pointer-up event that `handleMouseUp` reads. -/
structure MouseUpEvent where
  clientX : ℚ
  clientY : ℚ
  shiftKey : Bool
  deriving Repr, Inhabited

/-- What a pointer-up did besides mutating state: nothing, toggled a mark,
opened the image modal, or invoked the expansion orchestrator. -/
inductive UpAction where
  | idle
  | markToggled (id : String)
  | infoOpened (id : String)
  | expandRequested (id : String)
  deriving DecidableEq, Repr, Inhabited

/-- `handleMouseUp`: always clear the drag refs; if a node was held, clear
its `isDragging` flag; if total displacement stayed under the 5 px
threshold, run click semantics (shift toggles `isMarked` and publishes,
a plain click opens the image modal for image nodes and otherwise invokes
`expandNode`).  The source compares `Math.sqrt(dx*dx + dy*dy) < 5`;
over nonnegative arguments this is equivalent to `dx*dx + dy*dy < 25`,
which keeps the definition executable. -/
def handleMouseUp (s : EngineState) (ist : InteractState) (e : MouseUpEvent) :
    EngineState × InteractState × UpAction :=
  let ist1 : InteractState := { ist with isDragging := false }
  match ist.dragNode with
  | none => (s, ist1, UpAction.idle)
  | some node =>
    let undragged := updateFirst (fun n => n.id == node.id)
      (fun n => { n with isDragging := false }) s.nodes
    let s1 := { s with nodes := undragged }
    let ist2 := { ist1 with dragNode := none }
    let dx := e.clientX - ist.startDragPos.1
    let dy := e.clientY - ist.startDragPos.2
    if dx * dx + dy * dy < 25 then
      if e.shiftKey then
        let toggled := updateFirst (fun n => n.id == node.id)
          (fun n => { n with isMarked := !n.isMarked }) s1.nodes
        (syncNodesToGlobal { s1 with nodes := toggled }, ist2, UpAction.markToggled node.id)
      else if node.type = NodeType.image then
        ({ s1 with infoNode := some node.toMindMapNode }, ist2, UpAction.infoOpened node.id)
      else
        (s1, ist2, UpAction.expandRequested node.id)
    else
      (s1, ist2, UpAction.idle)

/-- `handleMouseUp` together with the synchronous prefix of the `expandNode`
call it awaits on a plain text-node click. -/
def handleMouseUpSync (s : EngineState) (ist : InteractState) (e : MouseUpEvent) :
    EngineState × InteractState × Option String :=
  match handleMouseUp s ist e with
  | (s1, ist1, UpAction.expandRequested nid) =>
    let r := expandNodeStart s1 nid
    (r.1, ist1, r.2)
  | (s1, ist1, _) => (s1, ist1, none)

/-- In-place `n.vx += fx; n.vy += fy` on a node object. -/
def addVel (fx fy : ℚ) (n : PhysicsNode) : PhysicsNode :=
  { n with vx := n.vx + fx, vy := n.vy + fy }

/-- In-place `n.vx -= fx; n.vy -= fy` on a node object. -/
def subVel (fx fy : ℚ) (n : PhysicsNode) : PhysicsNode :=
  { n with vx := n.vx - fx, vy := n.vy - fy }

/-- The local `dx = target.x - source.x` of the spring loop. -/
def springDX (source target : PhysicsNode) : ℚ := target.x - source.x

/-- The local `dy = target.y - source.y` of the spring loop. -/
def springDY (source target : PhysicsNode) : ℚ := target.y - source.y

/-- The local `dist = Math.sqrt(dx*dx + dy*dy) || 1` of the spring loop
(`sq` abstracts `Math.sqrt`; a zero result falls back to 1). -/
def springDist (sq : ℚ → ℚ) (source target : PhysicsNode) : ℚ :=
  let dist0 := sq (springDX source target * springDX source target +
    springDY source target * springDY source target)
  if dist0 = 0 then 1 else dist0

/-- The adaptive `targetDist = LINK_DISTANCE + (source.radius + target.radius) * 0.5`. -/
def springTargetDist (source target : PhysicsNode) : ℚ :=
  LINK_DISTANCE + (source.radius + target.radius) * (1/2)

/-- The local `force = (dist - targetDist) * LINK_STRENGTH`. -/
def springForce (sq : ℚ → ℚ) (source target : PhysicsNode) : ℚ :=
  (springDist sq source target - springTargetDist source target) * LINK_STRENGTH

/-- The local `fx = (dx / dist) * force`. -/
def springFX (sq : ℚ → ℚ) (source target : PhysicsNode) : ℚ :=
  springDX source target / springDist sq source target * springForce sq source target

/-- The local `fy = (dy / dist) * force`. -/
def springFY (sq : ℚ → ℚ) (source target : PhysicsNode) : ℚ :=
  springDY source target / springDist sq source target * springForce sq source target

/-- One spring-link application from the per-tick physics step: look up both
endpoints by id, compute the adaptive target distance and the proportional
corrective force along the link axis, and apply it in place to each
non-dragged endpoint (positively to the source, negatively to the target).
The source's local bindings `dx, dy, dist, targetDist, force, fx, fy` are
the `spring*` definitions above. -/
def applySpringLink (sq : ℚ → ℚ) (pNodes : List PhysicsNode) (link : PhysicsLink) :
    List PhysicsNode :=
  match pNodes.find? (fun n => n.id == link.source),
        pNodes.find? (fun n => n.id == link.target) with
  | some source, some target =>
    let ns1 :=
      if source.isDragging then pNodes
      else updateFirst (fun n => n.id == link.source)
        (addVel (springFX sq source target) (springFY sq source target)) pNodes
    if target.isDragging then ns1
    else updateFirst (fun n => n.id == link.target)
      (subVel (springFX sq source target) (springFY sq source target)) ns1
  | _, _ => pNodes

/-- The spring phase of one simulation step: `links.forEach(...)`. -/
def springPhase (sq : ℚ → ℚ) (pNodes : List PhysicsNode)
    (links : List PhysicsLink) : List PhysicsNode :=
  links.foldl (applySpringLink sq) pNodes

/-- JS `String.prototype.split(' ')` (split on every single space,
keeping empty pieces), charwise so that it evaluates in the kernel. -/
def splitOnSpaceGo : List Char → List Char → List String
  | [], acc => [String.mk acc.reverse]
  | c :: cs, acc =>
    if c = ' ' then String.mk acc.reverse :: splitOnSpaceGo cs []
    else splitOnSpaceGo cs (c :: acc)

/-- `text.split(' ')`. -/
def splitOnSpace (s : String) : List String :=
  splitOnSpaceGo s.data []

/-- Character-by-character greedy fallback wrapping inside
`drawWrappedText`: accumulate characters while the measured width stays
under the limit; on overflow, start a new line with the current character.
`mw` is the measured-text-width function `ctx.measureText(...).width`. -/
def charWrapGo (mw : String → ℚ) (maxWidth : ℚ) : List Char → String → List String
  | [], tempLine => [tempLine]
  | c :: cs, tempLine =>
    if mw (tempLine ++ String.singleton c) < maxWidth then
      charWrapGo mw maxWidth cs (tempLine ++ String.singleton c)
    else
      tempLine :: charWrapGo mw maxWidth cs (String.singleton c)

/-- The character-level fallback on a whole label. -/
def charWrap (mw : String → ℚ) (maxWidth : ℚ) (text : String) : List String :=
  charWrapGo mw maxWidth text.data ""

/-- Greedy word wrap: extend the current line with `" " + word` while the
measured width stays under the limit, else emit the line and restart at the
overflowing word. -/
def wordWrapGo (mw : String → ℚ) (maxWidth : ℚ) : List String → String → List String
  | [], currentLine => [currentLine]
  | w :: ws, currentLine =>
    if mw (currentLine ++ " " ++ w) < maxWidth then
      wordWrapGo mw maxWidth ws (currentLine ++ " " ++ w)
    else
      currentLine :: wordWrapGo mw maxWidth ws w

/-- The line-breaking computation of `drawWrappedText`: a single token longer
than 5 characters that measures over `maxWidth` goes through the
character-level fallback; everything else goes through greedy word wrap
starting from `words[0]`. -/
def wrapLines (mw : String → ℚ) (text : String) (maxWidth : ℚ) : List String :=
  let words := splitOnSpace text
  if words.length = 1 ∧ text.length > 5 then
    if mw text > maxWidth then charWrap mw maxWidth text else [text]
  else
    match words with
    | [] => [""]
    | w :: ws => wordWrapGo mw maxWidth ws w

/-! ## The bundled Expansion Provider wrapper (services module) -/

/-- Charwise matching of `pat` against a front segment of the list. -/
def listStartsWith : List Char → List Char → Bool
  | [], _ => true
  | _ :: _, [] => false
  | p :: ps, c :: cs => p == c && listStartsWith ps cs

/-- Does the list contain `pat` as a contiguous run? -/
def listContainsRun (pat : List Char) : List Char → Bool
  | [] => listStartsWith pat []
  | c :: cs => listStartsWith pat (c :: cs) || listContainsRun pat cs

/-- JS `String.prototype.includes`. -/
def strIncludes (s pat : String) : Bool :=
  listContainsRun pat.data s.data

/-- A rejected API call as `withFallback` inspects it: an optional numeric
`status` and a `message` (a thrown `JSON.parse` error carries no status). -/
structure ApiError where
  status : Option Nat := none
  message : String := ""
  deriving DecidableEq, Repr, Inhabited

/-- The retryable-error classification of `withFallback` (permission /
resource-exhausted / server / overloaded / location errors), applied to the
lowercased error message. -/
def isRetryableError (e : ApiError) : Bool :=
  let m := (e.message.map Char.toLower)
  let isPermissionError := e.status == some 403 || strIncludes m "403" || strIncludes m "permission"
  let isResourceExhausted := e.status == some 429 || strIncludes m "429"
  let isServerError := e.status == some 500 || strIncludes m "500" || strIncludes m "rpc"
  let isOverloaded := e.status == some 503 || strIncludes m "503" ||
    strIncludes m "overloaded" || strIncludes m "unavailable"
  let isLocationError := e.status == some 400 &&
    (strIncludes m "location" || strIncludes m "precondition" || strIncludes m "region")
  isPermissionError || isResourceExhausted || isServerError || isOverloaded || isLocationError

/-- `withFallback(primaryFn, fallbackFn)`: return the primary result; on a
retryable primary error run the fallback instead; rethrow anything else. -/
def withFallback (primary : Except ApiError AssociationResponse)
    (fallback : Except ApiError AssociationResponse) :
    Except ApiError AssociationResponse :=
  match primary with
  | Except.ok v => Except.ok v
  | Except.error e => if isRetryableError e then fallback else Except.error e

/-- Strip markdown code fences and trim:
`text.replace(/```json/g, '').replace(/```/g, '').trim()`. -/
def cleanResponseText (text : String) : String :=
  jsTrim ((text.replace "```json" "").replace "```" "")

/-- Outcome of one `generateContent` API call: a rejection, or a response
whose `text` may be missing. -/
inductive ProviderOutcome where
  | fail (e : ApiError)
  | ok (text : Option String)
  deriving Repr, Inhabited

/-- The inner `execute(model)` of `expandBrainstormNode`: a missing response
text resolves to the empty three-group object, otherwise the cleaned text is
parsed (`parse` abstracts `JSON.parse`, whose thrown `SyntaxError` becomes a
status-less rejection). -/
def executeCall (parse : String → Except String AssociationResponse)
    (outcome : ProviderOutcome) : Except ApiError AssociationResponse :=
  match outcome with
  | ProviderOutcome.fail e => Except.error e
  | ProviderOutcome.ok none => Except.ok ⟨[], [], []⟩
  | ProviderOutcome.ok (some text) =>
    match parse (cleanResponseText text) with
    | Except.ok r => Except.ok r
    | Except.error msg => Except.error { status := none, message := msg }

/-- `expandBrainstormNode`: primary call with fallback, wrapped in a
`try/catch` whose catch resolves with `{ up: [], side: [], down: [] }` —
so the wrapper never rejects.  `primary` and `fallback` are the outcomes of
the two possible API calls. -/
def expandBrainstormNode (parse : String → Except String AssociationResponse)
    (primary fallback : ProviderOutcome) : AssociationResponse :=
  match withFallback (executeCall parse primary) (executeCall parse fallback) with
  | Except.ok r => r
  | Except.error _ => ⟨[], [], []⟩

/-! ## General lemmas about `updateFirst` and `find?` -/

theorem updateFirst_length (p : α → Bool) (f : α → α) :
    ∀ l : List α, (updateFirst p f l).length = l.length := by
  intro l
  induction l with
  | nil => rfl
  | cons a l ih =>
    simp only [updateFirst]
    split <;> simp [ih]

theorem updateFirst_nomatch (p : α → Bool) (f : α → α) :
    ∀ l : List α, (∀ a ∈ l, p a = false) → updateFirst p f l = l := by
  intro l
  induction l with
  | nil => intro _; rfl
  | cons a l ih =>
    intro h
    have ha := h a (by simp)
    simp only [updateFirst, ha]
    simp only [Bool.false_eq_true, if_false, List.cons.injEq, true_and]
    exact ih fun b hb => h b (by simp [hb])

theorem updateFirst_append_of_nomatch_left (p : α → Bool) (f : α → α)
    (l1 l2 : List α) (h : ∀ a ∈ l1, p a = false) :
    updateFirst p f (l1 ++ l2) = l1 ++ updateFirst p f l2 := by
  induction l1 with
  | nil => rfl
  | cons a l1 ih =>
    have ha := h a (by simp)
    simp only [List.cons_append, updateFirst, ha, Bool.false_eq_true, if_false,
      List.cons.injEq, true_and]
    exact ih fun b hb => h b (by simp [hb])

theorem find?_updateFirst (p : α → Bool) (f : α → α)
    (hpf : ∀ a, p (f a) = p a) :
    ∀ l : List α, ∀ a, l.find? p = some a →
      (updateFirst p f l).find? p = some (f a) := by
  intro l
  induction l with
  | nil => intro a h; simp at h
  | cons b l ih =>
    intro a h
    by_cases hb : p b = true
    · rw [List.find?_cons_of_pos _ hb] at h
      cases h
      simp only [updateFirst, hb, if_true]
      rw [List.find?_cons_of_pos _ (by rw [hpf]; exact hb)]
    · have hb' : p b = false := by simpa using hb
      rw [List.find?_cons_of_neg _ (by simp [hb'])] at h
      simp only [updateFirst, hb', Bool.false_eq_true, if_false]
      rw [List.find?_cons_of_neg _ (by simp [hb'])]
      exact ih a h

theorem find?_updateFirst_other (p q : α → Bool) (f : α → α)
    (hpq : ∀ a, p a = true → q a = false) (hqf : ∀ a, q (f a) = q a) :
    ∀ l : List α, (updateFirst p f l).find? q = l.find? q := by
  intro l
  induction l with
  | nil => rfl
  | cons b l ih =>
    by_cases hb : p b = true
    · simp only [updateFirst, hb, if_true]
      have hqb := hpq b hb
      rw [List.find?_cons_of_neg _ (by simp [hqf, hqb]),
        List.find?_cons_of_neg _ (by simp [hqb])]
    · have hb' : p b = false := by simpa using hb
      simp only [updateFirst, hb', Bool.false_eq_true, if_false]
      by_cases hq : q b = true
      · rw [List.find?_cons_of_pos _ hq, List.find?_cons_of_pos _ hq]
      · have hq' : q b = false := by simpa using hq
        rw [List.find?_cons_of_neg _ (by simp [hq']),
          List.find?_cons_of_neg _ (by simp [hq'])]
        exact ih

theorem find?_append_eq (p : α → Bool) (l1 l2 : List α) (a : α)
    (h : l1.find? p = some a) : (l1 ++ l2).find? p = some a := by
  induction l1 with
  | nil => simp at h
  | cons b l1 ih =>
    by_cases hb : p b = true
    · rw [List.find?_cons_of_pos _ hb] at h
      rw [List.cons_append, List.find?_cons_of_pos _ hb]
      exact h
    · have hb' : p b = false := by simpa using hb
      rw [List.find?_cons_of_neg _ (by simp [hb'])] at h
      rw [List.cons_append, List.find?_cons_of_neg _ (by simp [hb'])]
      exact ih h

/-! ## Claim C8: wheel zoom is clamped to [0.1, 5] and never pans -/

theorem handleWheel_k_mem (t : Transform) (d : ℚ) :
    1/10 ≤ (handleWheel t d).k ∧ (handleWheel t d).k ≤ 5 := by
  unfold handleWheel
  constructor
  · exact le_max_left _ _
  · exact max_le (by norm_num) (min_le_left _ _)

/-- **C8**: starting from any scale in `[0.1, 5]`, after any finite sequence
of wheel events the scale is still in `[0.1, 5]`; each event adds a delta
proportional to the wheel amount (`-deltaY * 0.001`) and clamps, an input
whose unclamped result would leave the range lands exactly on the bound
(5 upward, 0.1 downward), and wheel events never change the pan offset. -/
theorem wheel_zoom_always_clamped (t : Transform) (ds : List ℚ)
    (h1 : 1/10 ≤ t.k) (h2 : t.k ≤ 5) :
    (1/10 ≤ (ds.foldl handleWheel t).k ∧ (ds.foldl handleWheel t).k ≤ 5) ∧
    (∀ u : Transform, ∀ d : ℚ, 5 ≤ u.k + -d * (1/1000) → (handleWheel u d).k = 5) ∧
    (∀ u : Transform, ∀ d : ℚ, u.k + -d * (1/1000) ≤ 1/10 →
      (handleWheel u d).k = 1/10) ∧
    (∀ u : Transform, ∀ d : ℚ, (handleWheel u d).x = u.x ∧ (handleWheel u d).y = u.y) := by
  refine ⟨?_, ?_, ?_, ?_⟩
  · induction ds generalizing t with
    | nil => exact ⟨h1, h2⟩
    | cons d ds ih =>
      simp only [List.foldl_cons]
      exact ih (handleWheel t d) (handleWheel_k_mem t d).1 (handleWheel_k_mem t d).2
  · intro u d h
    unfold handleWheel
    simp only
    rw [min_eq_left h, max_eq_right (by norm_num : (1/10 : ℚ) ≤ 5)]
  · intro u d h
    unfold handleWheel
    simp only
    rw [min_eq_right (le_trans h (by norm_num)), max_eq_left h]
  · intro u d
    exact ⟨rfl, rfl⟩

/-- Witness for C8 at a concrete input. -/
theorem wheel_zoom_always_clamped_witness :
    (1/10 ≤ ((1 : ℚ) : ℚ) ∧ ((1 : ℚ) : ℚ) ≤ 5) ∧
    (1/10 ≤ (([20, -100000] : List ℚ).foldl handleWheel ⟨0, 0, 1⟩).k ∧
      (([20, -100000] : List ℚ).foldl handleWheel ⟨0, 0, 1⟩).k ≤ 5) := by
  refine ⟨by norm_num, ?_⟩
  exact (wheel_zoom_always_clamped ⟨0, 0, 1⟩ [20, -100000]
    (by norm_num) (by norm_num)).1

/-! ## Claim C9: toolbar zoom buttons multiply without clamping -/

/-- **C9**: the toolbar buttons multiply the scale by 1.2 (zoom in) and 0.8
(zoom out) with no clamp, so from the in-range start scale 1 ten zoom-in
presses exceed 5 and twelve zoom-out presses fall below 0.1, while every
wheel event keeps the scale inside `[0.1, 5]`. -/
theorem zoom_buttons_have_no_clamp :
    (∀ t : Transform, (zoomInBtn t).k = t.k * (12/10) ∧
      (zoomOutBtn t).k = t.k * (8/10)) ∧
    (1/10 ≤ ((⟨0, 0, 1⟩ : Transform)).k ∧ ((⟨0, 0, 1⟩ : Transform)).k ≤ 5) ∧
    5 < (zoomInBtn (zoomInBtn (zoomInBtn (zoomInBtn (zoomInBtn (zoomInBtn
      (zoomInBtn (zoomInBtn (zoomInBtn (zoomInBtn ⟨0, 0, 1⟩)))))))))).k ∧
    (zoomOutBtn (zoomOutBtn (zoomOutBtn (zoomOutBtn (zoomOutBtn (zoomOutBtn
      (zoomOutBtn (zoomOutBtn (zoomOutBtn (zoomOutBtn (zoomOutBtn
      (zoomOutBtn ⟨0, 0, 1⟩)))))))))))).k < 1/10 ∧
    (∀ t : Transform, ∀ d : ℚ, 1/10 ≤ (handleWheel t d).k ∧ (handleWheel t d).k ≤ 5) := by
  refine ⟨fun t => ⟨rfl, rfl⟩, by norm_num, ?_, ?_, fun t d => handleWheel_k_mem t d⟩
  · show (5 : ℚ) < 1 * (12/10) * (12/10) * (12/10) * (12/10) * (12/10) * (12/10) *
      (12/10) * (12/10) * (12/10) * (12/10)
    norm_num
  · show (1 * (8/10) * (8/10) * (8/10) * (8/10) * (8/10) * (8/10) * (8/10) *
      (8/10) * (8/10) * (8/10) * (8/10) * (8/10) : ℚ) < 1/10
    norm_num

/-! ## Claim C4: expansion on a loading node or a node with children is a no-op -/

/-- **C4**: if the node resolved by id is already loading, or some link in
the store has it as source, `expandNode` returns before issuing the provider
call and the whole engine state (nodes, links, flags, viewport) is returned
unchanged. -/
theorem expand_on_busy_node_is_noop (s : EngineState) (nodeId : String)
    (node : PhysicsNode)
    (hfind : s.nodes.find? (fun n => n.id == nodeId) = some node)
    (hbusy : node.isLoading = true ∨
      s.links.any (fun l => l.source == node.id) = true) :
    expandNodeStart s nodeId = (s, none) := by
  unfold expandNodeStart
  rw [hfind]
  have hguard : (node.isLoading || s.links.any (fun l => l.source == node.id)) = true := by
    rcases hbusy with h | h <;> simp [h]
  simp only [hguard, if_true]

/-- A loading node used by the C4 witness. -/
def busyNode : PhysicsNode :=
  { id := "n1", text := "概念", type := NodeType.text, level := 1,
    associationType := AssocType.side, isLoading := true,
    x := 0, y := 0, vx := 0, vy := 0, radius := 28, color := COLORS_side }

/-- A store holding only `busyNode`. -/
def busyState : EngineState := { nodes := [busyNode] }

/-- Witness for C4 at a concrete input. -/
theorem expand_on_busy_node_is_noop_witness :
    busyState.nodes.find? (fun n => n.id == "n1") = some busyNode ∧
    busyNode.isLoading = true ∧
    expandNodeStart busyState "n1" = (busyState, none) :=
  ⟨rfl, rfl, expand_on_busy_node_is_noop busyState "n1" busyNode rfl (Or.inl rfl)⟩

/-! ## Concrete scenario machinery -/

/-- A throwaway stand-in for `Math.sqrt` in scenarios that never reach it. -/
def sqZero : ℚ → ℚ := fun _ => 0

/-- A concrete spawn-offset function for scenarios (positions are not
constrained by the scenarios). -/
def placeZero : Nat → Nat → ℚ × ℚ := fun _ _ => (0, 0)

/-! ## Claim C5: the 胡萝卜 root-expansion scenario -/

/-- The provider response of the scenario. -/
def carrotResult : AssociationResponse :=
  ⟨["蔬菜", "食物"], ["兔子", "沙拉"], ["胡萝卜切面"]⟩

/-- `startRoot("胡萝卜")` at time 0: reset, root creation, and the
synchronous prefix of the awaited expansion call. -/
def carrotStart : EngineState × Option String :=
  startRootStart sqZero {} "胡萝卜" 0

/-- The `currentNode` object reference held by the in-flight expansion. -/
def carrotCaptured : PhysicsNode :=
  (carrotStart.1.nodes.find? (fun n => n.id == "root-0")).getD default

/-- The state after the expansion completes (at time 1) and `startRoot`
finishes. -/
def carrotFinal : EngineState :=
  startRootFinish
    (expandNodeComplete sqZero placeZero carrotStart.1 carrotCaptured
      (Except.ok carrotResult) 1)

/-- **C5**: after submitting root text 胡萝卜 and an expansion returning
`up = [蔬菜, 食物]`, `side = [兔子, 沙拉]`, `down = [胡萝卜切面]`, the store
holds exactly the level-0 root plus 5 text children at level 1 with
`associationCategory` equal to their group tag and `parentId` the root id,
5 links all sourced at the root id, and the root's `isLoading` is false. -/
theorem carrot_scenario_store_shape :
    carrotStart.2 = some "root-0" ∧
    carrotFinal.nodes.map
        (fun n => (n.text, n.level, n.type, n.associationType, n.parentId)) =
      [("胡萝卜", 0, NodeType.text, AssocType.root, none),
       ("蔬菜", 1, NodeType.text, AssocType.up, some "root-0"),
       ("食物", 1, NodeType.text, AssocType.up, some "root-0"),
       ("兔子", 1, NodeType.text, AssocType.side, some "root-0"),
       ("沙拉", 1, NodeType.text, AssocType.side, some "root-0"),
       ("胡萝卜切面", 1, NodeType.text, AssocType.down, some "root-0")] ∧
    carrotFinal.links.map (fun l => (l.source, l.target)) =
      [("root-0", "root-0-up-0-1"), ("root-0", "root-0-up-1-1"),
       ("root-0", "root-0-side-0-1"), ("root-0", "root-0-side-1-1"),
       ("root-0", "root-0-down-0-1")] ∧
    (carrotFinal.nodes.find? (fun n => n.id == "root-0")).map
        (fun n => n.isLoading) = some false := by
  decide

/-! ## Claim C1: a completion arriving after a graph reset -/

/-- First root submission (`startRoot("A")` at time 0); its expansion call
stays in flight. -/
def staleStart1 : EngineState × Option String :=
  startRootStart sqZero {} "A" 0

/-- The object reference captured by the in-flight call. -/
def staleCaptured : PhysicsNode :=
  (staleStart1.1.nodes.find? (fun n => n.id == "root-0")).getD default

/-- Second root submission (`startRoot("B")` at time 5) while the first call
is still outstanding: the store is reset and `root-0` no longer exists. -/
def staleStart2 : EngineState × Option String :=
  startRootStart sqZero staleStart1.1 "B" 5

/-- The stale completion of the first call (at time 7) applied to the
already-reset store. -/
def staleFinal : EngineState :=
  expandNodeComplete sqZero placeZero staleStart2.1 staleCaptured
    (Except.ok ⟨["x"], [], []⟩) 7

/-- **C1 counterexample**: when the stale completion runs, no node with the
requested id (`root-0`) exists in the current store, yet the handler — which
uses the object reference captured before the `await`, not a fresh by-id
lookup — still appends a child node and a link sourced at the stale id to
the current store.  The claim says the result would be silently dropped with
no nodes or links added. -/
theorem stale_completion_still_mutates_store :
    staleStart2.1.nodes.find? (fun n => n.id == "root-0") = none ∧
    staleFinal.nodes.map (fun n => n.id) = ["root-5", "root-0-up-0-7"] ∧
    staleFinal.links.map (fun l => (l.source, l.target)) =
      [("root-0", "root-0-up-0-7")] := by
  decide

/-! ## Claim C3: provider rejection -/

/-- A non-loading, childless text node for the C3 counterexample. -/
def c3Node : PhysicsNode :=
  { id := "n1", text := "概念", type := NodeType.text, level := 1,
    associationType := AssocType.side, isLoading := true,
    x := 0, y := 0, vx := 0, vy := 0, radius := 28, color := COLORS_side }

/-- The store holding the loading node when the provider call rejects. -/
def c3State : EngineState := { nodes := [c3Node] }

/-- The state after the rejected call completes. -/
def c3Final : EngineState :=
  expandNodeComplete sqZero placeZero c3State c3Node
    (Except.error "network") 0

/-- **C3 counterexample**: on a provider rejection the emitted toast has
severity `error` (rendered red), not `warning` (rendered amber) as the
claim states — the `warning` severity is reserved for the empty-result
notification. -/
theorem reject_emits_error_not_warning_toast :
    c3Final.toast.map (fun t => t.type) = some ToastType.error ∧
    ToastType.error ≠ ToastType.warning := by
  decide

/-! ## Ids of synthesized children never collide with the parent id -/

theorem childId_length (pid tag : String) (idx now : Nat) :
    (childId pid tag idx now).length =
      pid.length + tag.length + (toString idx).length + (toString now).length + 3 := by
  simp only [childId, String.length_append,
    show ("-" : String).length = 1 from rfl]
  omega

theorem childId_ne_pid (pid tag : String) (idx now : Nat) :
    childId pid tag idx now ≠ pid := by
  intro h
  have := congrArg String.length h
  rw [childId_length] at this
  omega

theorem processGroupGo_id_shape (pid : String) (plevel : Nat) (tag : AssocType)
    (now : Nat) :
    ∀ texts : List String, ∀ i : Nat, ∀ m ∈ processGroupGo pid plevel tag now i texts,
      ∃ j : Nat, m.id = childId pid (tagStr tag) j now := by
  intro texts
  induction texts with
  | nil => intro i m hm; simp [processGroupGo] at hm
  | cons t ts ih =>
    intro i m hm
    simp only [processGroupGo, List.mem_cons] at hm
    rcases hm with hm | hm
    · exact ⟨i, by rw [hm]⟩
    · exact ih (i + 1) m hm

theorem newNodesData_id_ne (pid : String) (plevel : Nat) (now : Nat)
    (r : AssociationResponse) :
    ∀ m ∈ newNodesData pid plevel now r, (m.id == pid) = false := by
  intro m hm
  simp only [newNodesData, processGroup, List.mem_append] at hm
  have hshape : ∃ j : Nat, ∃ tag : String, m.id = childId pid tag j now := by
    rcases hm with (hm | hm) | hm
    · obtain ⟨j, hj⟩ := processGroupGo_id_shape pid plevel AssocType.up now r.up 0 m hm
      exact ⟨j, tagStr AssocType.up, hj⟩
    · obtain ⟨j, hj⟩ := processGroupGo_id_shape pid plevel AssocType.side now r.side 0 m hm
      exact ⟨j, tagStr AssocType.side, hj⟩
    · obtain ⟨j, hj⟩ := processGroupGo_id_shape pid plevel AssocType.down now r.down 0 m hm
      exact ⟨j, tagStr AssocType.down, hj⟩
  obtain ⟨j, tag, hj⟩ := hshape
  rw [hj]
  exact beq_eq_false_iff_ne.mpr (childId_ne_pid pid tag j now)

theorem spawnGo_ids (sq : ℚ → ℚ) (place : Nat → Nat → ℚ × ℚ) (px py : ℚ)
    (total : Nat) :
    ∀ data : List MindMapNode, ∀ i : Nat,
      ∀ pn ∈ spawnGo sq place px py total i data, ∃ m ∈ data, pn.id = m.id := by
  intro data
  induction data with
  | nil => intro i pn hpn; simp [spawnGo] at hpn
  | cons n ns ih =>
    intro i pn hpn
    simp only [spawnGo, List.mem_cons] at hpn
    rcases hpn with hpn | hpn
    · exact ⟨n, by simp, by rw [hpn]; rfl⟩
    · obtain ⟨m, hm, hid⟩ := ih (i + 1) pn hpn
      exact ⟨m, by simp [hm], hid⟩

theorem newPhysicsNodes_id_ne (sq : ℚ → ℚ) (place : Nat → Nat → ℚ × ℚ)
    (px py : ℚ) (pid : String) (plevel : Nat) (now : Nat) (r : AssociationResponse) :
    ∀ pn ∈ newPhysicsNodes sq place px py (newNodesData pid plevel now r),
      (pn.id == pid) = false := by
  intro pn hpn
  obtain ⟨m, hm, hid⟩ := spawnGo_ids sq place px py _ _ 0 pn hpn
  rw [hid]
  exact newNodesData_id_ne pid plevel now r m hm

/-! ## Claim C1 (amended): the by-id guard runs at invocation, not at completion -/

/-- **C1 (amended)**: the by-id lookup happens when `expandNode` is invoked —
if the id is absent at that moment the call is a no-op — but the completion
handler works through the object reference captured before the `await`: if
no node with the captured id exists in the current store when the call
completes (e.g. the graph was reset), a successful result is *still*
applied, appending the synthesized children and links (sourced at the stale
id) to the current store; no pre-existing node is mutated, and a rejection
leaves the store entirely unchanged. -/
theorem completion_applies_despite_missing_id (sq : ℚ → ℚ)
    (place : Nat → Nat → ℚ × ℚ) (s : EngineState) (captured : PhysicsNode)
    (r : AssociationResponse) (msg : String) (now : Nat)
    (habs : s.nodes.find? (fun n => n.id == captured.id) = none) :
    (∀ s2 : EngineState, ∀ nid : String,
      s2.nodes.find? (fun n => n.id == nid) = none →
      expandNodeStart s2 nid = (s2, none)) ∧
    (expandNodeComplete sq place s captured (Except.ok r) now).nodes =
      s.nodes ++ newPhysicsNodes sq place captured.x captured.y
        (newNodesData captured.id captured.level now r) ∧
    (expandNodeComplete sq place s captured (Except.ok r) now).links =
      s.links ++ (newPhysicsNodes sq place captured.x captured.y
        (newNodesData captured.id captured.level now r)).map
        (fun n => PhysicsLink.mk captured.id n.id 1) ∧
    (expandNodeComplete sq place s captured (Except.error msg) now).nodes = s.nodes ∧
    (expandNodeComplete sq place s captured (Except.error msg) now).links = s.links := by
  have hnomatch : ∀ a ∈ s.nodes, (fun n => n.id == captured.id) a = false := by
    intro a ha
    have := List.find?_eq_none.mp habs a ha
    simpa using this
  have hnew : ∀ pn ∈ newPhysicsNodes sq place captured.x captured.y
      (newNodesData captured.id captured.level now r),
      (fun n => n.id == captured.id) pn = false := by
    intro pn hpn
    exact newPhysicsNodes_id_ne sq place captured.x captured.y
      captured.id captured.level now r pn hpn
  refine ⟨?_, ?_, ?_, ?_, ?_⟩
  · intro s2 nid h
    unfold expandNodeStart
    rw [h]
  · show (syncNodesToGlobal _).nodes = _
    simp only [expandNodeComplete, syncNodesToGlobal]
    rw [updateFirst_nomatch _ _ _ (fun a ha => by
      rcases List.mem_append.mp (by
        have : (if (newNodesData captured.id captured.level now r).length = 0 then
            { s with toast := some ⟨"没有联想出新词汇", ToastType.warning⟩ }
          else s).nodes = s.nodes := by split <;> rfl
        rw [this] at ha
        exact ha) with h1 | h2
      · exact hnomatch a h1
      · exact hnew a h2)]
    split <;> rfl
  · simp only [expandNodeComplete, syncNodesToGlobal]
    split <;> rfl
  · simp only [expandNodeComplete, syncNodesToGlobal]
    rw [updateFirst_nomatch _ _ _ hnomatch]
  · rfl

/-- Witness for C1 (amended) at the stale-completion trace. -/
theorem completion_applies_despite_missing_id_witness :
    staleStart2.1.nodes.find? (fun n => n.id == staleCaptured.id) = none ∧
    (expandNodeComplete sqZero placeZero staleStart2.1 staleCaptured
        (Except.ok ⟨["x"], [], []⟩) 7).nodes =
      staleStart2.1.nodes ++ newPhysicsNodes sqZero placeZero staleCaptured.x
        staleCaptured.y
        (newNodesData staleCaptured.id staleCaptured.level 7 ⟨["x"], [], []⟩) :=
  ⟨by decide,
    (completion_applies_despite_missing_id sqZero placeZero staleStart2.1
      staleCaptured ⟨["x"], [], []⟩ "m" 7 (by decide)).2.1⟩

/-! ## Claim C3 (amended): loading-flag lifecycle and the rejection toast -/

theorem toastIf_nodes (s : EngineState) (t : Toast) (c : Prop) [Decidable c] :
    (if c then { s with toast := some t } else s).nodes = s.nodes := by
  split <;> rfl

theorem toastIf_links (s : EngineState) (t : Toast) (c : Prop) [Decidable c] :
    (if c then { s with toast := some t } else s).links = s.links := by
  split <;> rfl

/-- **C3 (amended)**: for a resolvable, idle, childless node, `expandNode`
issues the provider call with the node's `isLoading` set to true; on
completion — success or failure — `isLoading` is false again; on a
rejection no child nodes or links are added and a transient notification of
severity *error* (not *warning*) is emitted, which the toast timer
auto-dismisses after the fixed 4000 ms delay. -/
theorem expand_loading_lifecycle (sq : ℚ → ℚ) (place : Nat → Nat → ℚ × ℚ)
    (s : EngineState) (node : PhysicsNode) (r : AssociationResponse)
    (msg : String) (now : Nat)
    (hfind : s.nodes.find? (fun n => n.id == node.id) = some node)
    (hnl : node.isLoading = false)
    (hnc : s.links.any (fun l => l.source == node.id) = false) :
    (expandNodeStart s node.id).2 = some node.id ∧
    ((expandNodeStart s node.id).1.nodes.find? (fun n => n.id == node.id) =
      some { node with isLoading := true }) ∧
    ((expandNodeComplete sq place (expandNodeStart s node.id).1
        { node with isLoading := true } (Except.ok r) now).nodes.find?
        (fun n => n.id == node.id) =
      some { node with
        children := (newNodesData node.id node.level now r).map (fun m => m.id),
        isLoading := false }) ∧
    ((expandNodeComplete sq place (expandNodeStart s node.id).1
        { node with isLoading := true } (Except.error msg) now).nodes.find?
        (fun n => n.id == node.id) = some { node with isLoading := false }) ∧
    ((expandNodeComplete sq place (expandNodeStart s node.id).1
        { node with isLoading := true } (Except.error msg) now).links =
      (expandNodeStart s node.id).1.links) ∧
    ((expandNodeComplete sq place (expandNodeStart s node.id).1
        { node with isLoading := true } (Except.error msg) now).nodes.length =
      s.nodes.length) ∧
    ((expandNodeComplete sq place (expandNodeStart s node.id).1
        { node with isLoading := true } (Except.error msg) now).toast =
      some ⟨"扩展失败: " ++ msg, ToastType.error⟩) ∧
    (∀ s2 : EngineState, (toastTimerFire s2).toast = none) ∧
    TOAST_DISMISS_MS = 4000 := by
  have hguard : (node.isLoading ||
      s.links.any (fun l => l.source == node.id)) = false := by
    rw [hnl, hnc]
    rfl
  have hstart : expandNodeStart s node.id =
      ({ s with
          nodes := updateFirst (fun n => n.id == node.id)
            (fun n => { n with isLoading := true }) s.nodes,
          simulationActive := true }, some node.id) := by
    unfold expandNodeStart
    rw [hfind]
    simp only [hguard, Bool.false_eq_true, if_false]
  have hpres : ∀ a : PhysicsNode,
      ((fun n => n.id == node.id) ({ a with isLoading := true } : PhysicsNode)) =
        ((fun n => n.id == node.id) a) := fun a => rfl
  have hloaded : (expandNodeStart s node.id).1.nodes.find?
      (fun n => n.id == node.id) = some { node with isLoading := true } := by
    rw [hstart]
    exact find?_updateFirst _ _ hpres s.nodes node hfind
  have hcapid : ({ node with isLoading := true } : PhysicsNode).id = node.id := rfl
  refine ⟨by rw [hstart], hloaded, ?_, ?_, ?_, ?_, ?_, fun s2 => rfl, rfl⟩
  · -- success completion: children written, isLoading cleared
    show (syncNodesToGlobal _).nodes.find? _ = _
    simp only [expandNodeComplete, syncNodesToGlobal]
    have happ : ((if (newNodesData ({ node with isLoading := true } : PhysicsNode).id
          ({ node with isLoading := true } : PhysicsNode).level now r).length = 0 then
        { (expandNodeStart s node.id).1 with
            toast := some ⟨"没有联想出新词汇", ToastType.warning⟩ }
      else (expandNodeStart s node.id).1).nodes ++
        newPhysicsNodes sq place ({ node with isLoading := true } : PhysicsNode).x
          ({ node with isLoading := true } : PhysicsNode).y
          (newNodesData ({ node with isLoading := true } : PhysicsNode).id
            ({ node with isLoading := true } : PhysicsNode).level now r)).find?
        (fun n => n.id == node.id) = some { node with isLoading := true } := by
      rw [toastIf_nodes]
      exact find?_append_eq _ _ _ _ hloaded
    have := find?_updateFirst (fun (n : PhysicsNode) => n.id == node.id)
      (fun (n : PhysicsNode) => { n with
        children := (newNodesData ({ node with isLoading := true } : PhysicsNode).id
          ({ node with isLoading := true } : PhysicsNode).level now r).map
            (fun m => m.id),
        isLoading := false }) (fun a => rfl) _ _ happ
    exact this
  · -- error completion: isLoading cleared on the captured object
    show (syncNodesToGlobal _).nodes.find? _ = _
    simp only [expandNodeComplete, syncNodesToGlobal]
    have h4 := find?_updateFirst (fun (n : PhysicsNode) => n.id == node.id)
      (fun (n : PhysicsNode) => { n with isLoading := false }) (fun a => rfl)
      (expandNodeStart s node.id).1.nodes ({ node with isLoading := true }) hloaded
    exact h4
  · rfl
  · -- error completion: node count unchanged
    show (syncNodesToGlobal _).nodes.length = _
    simp only [expandNodeComplete, syncNodesToGlobal]
    rw [updateFirst_length, hstart]
    exact updateFirst_length _ _ s.nodes
  · rfl

/-- The idle node of the C3 witness. -/
def c3IdleNode : PhysicsNode :=
  { id := "n1", text := "概念", type := NodeType.text, level := 1,
    associationType := AssocType.side, isLoading := false,
    x := 0, y := 0, vx := 0, vy := 0, radius := 28, color := COLORS_side }

/-- The store of the C3 witness. -/
def c3IdleState : EngineState := { nodes := [c3IdleNode] }

/-- Witness for C3 (amended) at a concrete input. -/
theorem expand_loading_lifecycle_witness :
    c3IdleState.nodes.find? (fun n => n.id == c3IdleNode.id) = some c3IdleNode ∧
    c3IdleNode.isLoading = false ∧
    c3IdleState.links.any (fun l => l.source == c3IdleNode.id) = false ∧
    (expandNodeStart c3IdleState c3IdleNode.id).2 = some c3IdleNode.id :=
  ⟨rfl, rfl, rfl,
    (expand_loading_lifecycle sqZero placeZero c3IdleState c3IdleNode
      ⟨[], [], []⟩ "boom" 0 rfl rfl rfl).1⟩

/-! ## Claim C2: what pointer-up actually publishes -/

/-- A node sitting in the store during the C2 gestures. -/
def c2Node : PhysicsNode :=
  { id := "d1", text := "词", type := NodeType.text, level := 1,
    associationType := AssocType.up,
    x := 0, y := 0, vx := 0, vy := 0, radius := 28, color := COLORS_up }

/-- The store for the C2 gestures, with an empty publication log. -/
def c2State : EngineState := { nodes := [c2Node] }

/-- A background gesture: the pointer went down on empty canvas
(`dragNode` is null) and comes up. -/
def c2BgIst : InteractState := { isDragging := true, dragNode := none }

/-- The pointer-up event ending the background gesture. -/
def c2BgEvent : MouseUpEvent := ⟨0, 0, false⟩

/-- **C2 counterexample**: on pointer-up after a background (canvas-pan)
gesture the engine publishes nothing at all — `syncNodesToGlobal` is never
called on this path — although drag state is cleared; the claim says the
full node list is published on pointer-up in all cases. -/
theorem background_pointerup_publishes_nothing :
    (handleMouseUp c2State c2BgIst c2BgEvent).1.published = [] ∧
    (handleMouseUp c2State c2BgIst c2BgEvent).1 = c2State ∧
    (handleMouseUp c2State c2BgIst c2BgEvent).2.1.isDragging = false ∧
    (handleMouseUp c2State c2BgIst c2BgEvent).2.2 = UpAction.idle :=
  ⟨rfl, rfl, rfl, rfl⟩

theorem expandNodeStart_preserves_published (s : EngineState) (nid : String) :
    (expandNodeStart s nid).1.published = s.published := by
  unfold expandNodeStart
  cases s.nodes.find? (fun n => n.id == nid) with
  | none => rfl
  | some node =>
    dsimp only
    split <;> rfl

/-- **C2 (amended)**: pointer-up always clears the drag state (the
`isDragging` ref, the `dragNode` ref, and the held node's flag), and when
displacement reaches the 5 px threshold no click semantics fire; but the
node list is *not* published in all cases: it is published synchronously
only by the shift-click mark toggle, while background gestures, genuine
drags, image-node clicks and the synchronous part of an expansion click
publish nothing (an expansion click publishes later, from the completion
handler). -/
theorem pointerup_clears_drag_publishes_selectively
    (s : EngineState) (ist : InteractState) (e : MouseUpEvent) :
    ((handleMouseUp s ist e).2.1.isDragging = false ∧
      (handleMouseUp s ist e).2.1.dragNode = none) ∧
    (ist.dragNode = none →
      handleMouseUp s ist e = (s, { ist with isDragging := false }, UpAction.idle)) ∧
    (∀ node : PhysicsNode, ist.dragNode = some node →
      25 ≤ (e.clientX - ist.startDragPos.1) * (e.clientX - ist.startDragPos.1) +
        (e.clientY - ist.startDragPos.2) * (e.clientY - ist.startDragPos.2) →
      (handleMouseUp s ist e).1.published = s.published ∧
      (handleMouseUp s ist e).2.2 = UpAction.idle) ∧
    (∀ node : PhysicsNode, ist.dragNode = some node →
      (e.clientX - ist.startDragPos.1) * (e.clientX - ist.startDragPos.1) +
        (e.clientY - ist.startDragPos.2) * (e.clientY - ist.startDragPos.2) < 25 →
      e.shiftKey = true →
      (handleMouseUp s ist e).1.published =
        s.published ++ [(handleMouseUp s ist e).1.nodes]) ∧
    (∀ node : PhysicsNode, ist.dragNode = some node →
      (e.clientX - ist.startDragPos.1) * (e.clientX - ist.startDragPos.1) +
        (e.clientY - ist.startDragPos.2) * (e.clientY - ist.startDragPos.2) < 25 →
      e.shiftKey = false → node.type = NodeType.image →
      (handleMouseUp s ist e).1.published = s.published ∧
      (handleMouseUp s ist e).2.2 = UpAction.infoOpened node.id) ∧
    (∀ node : PhysicsNode, ist.dragNode = some node →
      (e.clientX - ist.startDragPos.1) * (e.clientX - ist.startDragPos.1) +
        (e.clientY - ist.startDragPos.2) * (e.clientY - ist.startDragPos.2) < 25 →
      e.shiftKey = false → node.type ≠ NodeType.image →
      (handleMouseUp s ist e).1.published = s.published ∧
      (handleMouseUp s ist e).2.2 = UpAction.expandRequested node.id) ∧
    (∀ s2 : EngineState, ∀ nid : String,
      (expandNodeStart s2 nid).1.published = s2.published) ∧
    (∀ node a : PhysicsNode, ist.dragNode = some node →
      s.nodes.find? (fun n => n.id == node.id) = some a →
      ((handleMouseUp s ist e).1.nodes.find? (fun n => n.id == node.id)).map
        (fun n => n.isDragging) = some false) ∧
    (∀ sq : ℚ → ℚ, ∀ place : Nat → Nat → ℚ × ℚ, ∀ s2 : EngineState,
      ∀ captured : PhysicsNode, ∀ result : Except String AssociationResponse,
      ∀ now : Nat,
      (expandNodeComplete sq place s2 captured result now).published =
        s2.published ++ [(expandNodeComplete sq place s2 captured result now).nodes]) := by
  refine ⟨?_, ?_, ?_, ?_, ?_, ?_,
    fun s2 nid => expandNodeStart_preserves_published s2 nid, ?_, ?_⟩
  · cases h : ist.dragNode with
    | none => simp [handleMouseUp, h]
    | some node =>
      simp only [handleMouseUp, h]
      split_ifs <;> simp [syncNodesToGlobal]
  · intro h
    simp [handleMouseUp, h]
  · intro node hd hge
    simp only [handleMouseUp, hd]
    rw [if_neg (not_lt.mpr hge)]
    exact ⟨rfl, rfl⟩
  · intro node hd hlt hshift
    simp only [handleMouseUp, hd]
    rw [if_pos hlt]
    simp [hshift, syncNodesToGlobal]
  · intro node hd hlt hshift himg
    simp only [handleMouseUp, hd]
    rw [if_pos hlt]
    simp only [hshift, Bool.false_eq_true, if_false]
    rw [if_pos himg]
    exact ⟨rfl, rfl⟩
  · intro node hd hlt hshift himg
    simp only [handleMouseUp, hd]
    rw [if_pos hlt]
    simp only [hshift, Bool.false_eq_true, if_false]
    rw [if_neg himg]
    exact ⟨rfl, rfl⟩
  · -- the held node's isDragging flag is cleared in the store on every path
    intro node a hd hfind
    have hclear := find?_updateFirst (fun (n : PhysicsNode) => n.id == node.id)
      (fun (n : PhysicsNode) => { n with isDragging := false }) (fun _ => rfl)
      s.nodes a hfind
    have htoggle := find?_updateFirst (fun (n : PhysicsNode) => n.id == node.id)
      (fun (n : PhysicsNode) => { n with isMarked := !n.isMarked }) (fun _ => rfl)
      _ _ hclear
    simp only [handleMouseUp, hd]
    split_ifs with h1 h2 h3
    · dsimp only [syncNodesToGlobal]
      rw [htoggle]
      rfl
    · dsimp only
      rw [hclear]
      rfl
    · dsimp only
      rw [hclear]
      rfl
    · dsimp only
      rw [hclear]
      rfl
  · -- every expansion completion publishes the full current node list
    intro sq place s2 captured result now
    cases result with
    | error msg => rfl
    | ok r =>
      simp only [expandNodeComplete, syncNodesToGlobal]
      by_cases hlen : (newNodesData captured.id captured.level now r).length = 0
      · rw [if_pos hlen]
      · rw [if_neg hlen]

/-- The interaction state of the C2 witness: a shift-click on `c2Node`. -/
def c2ShiftIst : InteractState :=
  { isDragging := true, dragNode := some c2Node, startDragPos := (0, 0) }

/-- The shift-click pointer-up event of the C2 witness. -/
def c2ShiftEvent : MouseUpEvent := ⟨1, 1, true⟩

/-- Witness for C2 (amended): the shift-click branch publishes and the held
node's drag flag is cleared in the store. -/
theorem pointerup_clears_drag_publishes_selectively_witness :
    c2ShiftIst.dragNode = some c2Node ∧
    (c2ShiftEvent.clientX - c2ShiftIst.startDragPos.1) *
        (c2ShiftEvent.clientX - c2ShiftIst.startDragPos.1) +
      (c2ShiftEvent.clientY - c2ShiftIst.startDragPos.2) *
        (c2ShiftEvent.clientY - c2ShiftIst.startDragPos.2) < 25 ∧
    c2State.nodes.find? (fun n => n.id == c2Node.id) = some c2Node ∧
    (handleMouseUp c2State c2ShiftIst c2ShiftEvent).1.published =
      c2State.published ++ [(handleMouseUp c2State c2ShiftIst c2ShiftEvent).1.nodes] ∧
    ((handleMouseUp c2State c2ShiftIst c2ShiftEvent).1.nodes.find?
        (fun n => n.id == c2Node.id)).map (fun n => n.isDragging) = some false := by
  have hlt : (c2ShiftEvent.clientX - c2ShiftIst.startDragPos.1) *
        (c2ShiftEvent.clientX - c2ShiftIst.startDragPos.1) +
      (c2ShiftEvent.clientY - c2ShiftIst.startDragPos.2) *
        (c2ShiftEvent.clientY - c2ShiftIst.startDragPos.2) < 25 := by
    norm_num [c2ShiftEvent, c2ShiftIst]
  exact ⟨rfl, hlt, rfl,
    (pointerup_clears_drag_publishes_selectively c2State c2ShiftIst
        c2ShiftEvent).2.2.2.1 c2Node rfl hlt rfl,
    (pointerup_clears_drag_publishes_selectively c2State c2ShiftIst
        c2ShiftEvent).2.2.2.2.2.2.2.1 c2Node c2Node rfl rfl⟩

/-! ## Claim C6: the spring force of the simulation step -/

theorem updateFirst_addVel_find_other (fx fy : ℚ) (s1 s2 : String) (h : s1 ≠ s2)
    (l : List PhysicsNode) :
    (updateFirst (fun n => n.id == s1) (addVel fx fy) l).find?
      (fun n => n.id == s2) = l.find? (fun n => n.id == s2) := by
  refine find?_updateFirst_other (fun (n : PhysicsNode) => n.id == s1)
    (fun (n : PhysicsNode) => n.id == s2) (addVel fx fy) ?_ (fun a => rfl) l
  intro a ha
  have h1 : a.id = s1 := by simpa using ha
  simp [h1, h]

theorem updateFirst_subVel_find_other (fx fy : ℚ) (s1 s2 : String) (h : s1 ≠ s2)
    (l : List PhysicsNode) :
    (updateFirst (fun n => n.id == s1) (subVel fx fy) l).find?
      (fun n => n.id == s2) = l.find? (fun n => n.id == s2) := by
  refine find?_updateFirst_other (fun (n : PhysicsNode) => n.id == s1)
    (fun (n : PhysicsNode) => n.id == s2) (subVel fx fy) ?_ (fun a => rfl) l
  intro a ha
  have h1 : a.id = s1 := by simpa using ha
  simp [h1, h]

theorem updateFirst_addVel_find_self (fx fy : ℚ) (s1 : String)
    (l : List PhysicsNode) (a : PhysicsNode)
    (h : l.find? (fun n => n.id == s1) = some a) :
    (updateFirst (fun n => n.id == s1) (addVel fx fy) l).find?
      (fun n => n.id == s1) = some (addVel fx fy a) :=
  find?_updateFirst (fun (n : PhysicsNode) => n.id == s1) (addVel fx fy)
    (fun _ => rfl) l a h

theorem updateFirst_subVel_find_self (fx fy : ℚ) (s1 : String)
    (l : List PhysicsNode) (a : PhysicsNode)
    (h : l.find? (fun n => n.id == s1) = some a) :
    (updateFirst (fun n => n.id == s1) (subVel fx fy) l).find?
      (fun n => n.id == s1) = some (subVel fx fy a) :=
  find?_updateFirst (fun (n : PhysicsNode) => n.id == s1) (subVel fx fy)
    (fun _ => rfl) l a h

theorem springFX_as_deviation (sq : ℚ → ℚ) (src tgt : PhysicsNode) :
    springFX sq src tgt =
      (springDist sq src tgt - (LINK_DISTANCE + (src.radius + tgt.radius) * (1/2))) *
        LINK_STRENGTH * ((tgt.x - src.x) / springDist sq src tgt) := by
  unfold springFX springForce springTargetDist springDX
  ring

theorem springFY_as_deviation (sq : ℚ → ℚ) (src tgt : PhysicsNode) :
    springFY sq src tgt =
      (springDist sq src tgt - (LINK_DISTANCE + (src.radius + tgt.radius) * (1/2))) *
        LINK_STRENGTH * ((tgt.y - src.y) / springDist sq src tgt) := by
  unfold springFY springForce springTargetDist springDY
  ring

/-- **C6**: for a link whose endpoints resolve to distinct nodes, the spring
update adds to each non-dragged endpoint a velocity change equal to the
deviation `dist - (LINK_DISTANCE + (radius_src + radius_tgt) / 2)` between
current distance and adaptive target distance, scaled by `LINK_STRENGTH`
and directed along the link axis `(dx, dy) / dist` — positive on the
source, negative on the target (the force is split between the endpoints) —
while a user-dragged endpoint receives no force at all. -/
theorem spring_force_formula (sq : ℚ → ℚ) (pNodes : List PhysicsNode)
    (link : PhysicsLink) (src tgt : PhysicsNode)
    (hs : pNodes.find? (fun n => n.id == link.source) = some src)
    (ht : pNodes.find? (fun n => n.id == link.target) = some tgt)
    (hne : link.source ≠ link.target) :
    (src.isDragging = false → tgt.isDragging = false →
      (applySpringLink sq pNodes link).find? (fun n => n.id == link.source) =
        some { src with
          vx := src.vx +
            (springDist sq src tgt - (LINK_DISTANCE + (src.radius + tgt.radius) * (1/2))) *
              LINK_STRENGTH * ((tgt.x - src.x) / springDist sq src tgt),
          vy := src.vy +
            (springDist sq src tgt - (LINK_DISTANCE + (src.radius + tgt.radius) * (1/2))) *
              LINK_STRENGTH * ((tgt.y - src.y) / springDist sq src tgt) } ∧
      (applySpringLink sq pNodes link).find? (fun n => n.id == link.target) =
        some { tgt with
          vx := tgt.vx -
            (springDist sq src tgt - (LINK_DISTANCE + (src.radius + tgt.radius) * (1/2))) *
              LINK_STRENGTH * ((tgt.x - src.x) / springDist sq src tgt),
          vy := tgt.vy -
            (springDist sq src tgt - (LINK_DISTANCE + (src.radius + tgt.radius) * (1/2))) *
              LINK_STRENGTH * ((tgt.y - src.y) / springDist sq src tgt) }) ∧
    (src.isDragging = true →
      (applySpringLink sq pNodes link).find? (fun n => n.id == link.source) = some src) ∧
    (tgt.isDragging = true →
      (applySpringLink sq pNodes link).find? (fun n => n.id == link.target) = some tgt) := by
  unfold applySpringLink
  rw [hs, ht]
  dsimp only
  refine ⟨?_, ?_, ?_⟩
  · intro hsd htd
    simp only [hsd, htd, Bool.false_eq_true, if_false]
    constructor
    · rw [updateFirst_subVel_find_other _ _ link.target link.source
        (fun h => hne h.symm),
        updateFirst_addVel_find_self _ _ link.source pNodes src hs]
      rw [show addVel (springFX sq src tgt) (springFY sq src tgt) src =
        { src with vx := src.vx + springFX sq src tgt,
                   vy := src.vy + springFY sq src tgt } from rfl]
      rw [springFX_as_deviation, springFY_as_deviation, hsd]
    · rw [updateFirst_subVel_find_self _ _ link.target _ tgt
        (by rw [updateFirst_addVel_find_other _ _ link.source link.target hne]
            exact ht)]
      rw [show subVel (springFX sq src tgt) (springFY sq src tgt) tgt =
        { tgt with vx := tgt.vx - springFX sq src tgt,
                   vy := tgt.vy - springFY sq src tgt } from rfl]
      rw [springFX_as_deviation, springFY_as_deviation, htd]
  · intro hsd
    simp only [hsd, if_true]
    by_cases htd : tgt.isDragging
    · simp only [htd, if_true]
      exact hs
    · simp only [htd, Bool.false_eq_true, if_false]
      rw [updateFirst_subVel_find_other _ _ link.target link.source
        (fun h => hne h.symm)]
      exact hs
  · intro htd
    simp only [htd, if_true]
    by_cases hsd : src.isDragging
    · simp only [hsd, if_true]
      exact ht
    · simp only [hsd, Bool.false_eq_true, if_false]
      rw [updateFirst_addVel_find_other _ _ link.source link.target hne]
      exact ht

/-- The concrete source endpoint of the C6 witness. -/
def springSrc : PhysicsNode :=
  { id := "a", text := "甲", type := NodeType.text, level := 0,
    associationType := AssocType.root,
    x := 0, y := 0, vx := 0, vy := 0, radius := 45, color := COLORS_root }

/-- The concrete target endpoint of the C6 witness. -/
def springTgt : PhysicsNode :=
  { id := "b", text := "乙", type := NodeType.text, level := 1,
    associationType := AssocType.up,
    x := 3, y := 4, vx := 0, vy := 0, radius := 28, color := COLORS_up }

/-- The link of the C6 witness. -/
def springLinkW : PhysicsLink := ⟨"a", "b", 1⟩

/-- Witness for C6 at a concrete two-node store. -/
theorem spring_force_formula_witness :
    [springSrc, springTgt].find? (fun n => n.id == springLinkW.source) = some springSrc ∧
    [springSrc, springTgt].find? (fun n => n.id == springLinkW.target) = some springTgt ∧
    springSrc.isDragging = false ∧
    ((applySpringLink (fun q => q) [springSrc, springTgt] springLinkW).find?
        (fun n => n.id == springLinkW.source) =
      some { springSrc with
        vx := springSrc.vx +
          (springDist (fun q => q) springSrc springTgt -
            (LINK_DISTANCE + (springSrc.radius + springTgt.radius) * (1/2))) *
            LINK_STRENGTH *
            ((springTgt.x - springSrc.x) / springDist (fun q => q) springSrc springTgt),
        vy := springSrc.vy +
          (springDist (fun q => q) springSrc springTgt -
            (LINK_DISTANCE + (springSrc.radius + springTgt.radius) * (1/2))) *
            LINK_STRENGTH *
            ((springTgt.y - springSrc.y) / springDist (fun q => q) springSrc springTgt) }) :=
  ⟨rfl, rfl, rfl,
    ((spring_force_formula (fun q => q) [springSrc, springTgt] springLinkW
      springSrc springTgt rfl rfl (by decide)).1 rfl rfl).1⟩

/-! ## Claim C7: line width discipline of the text layout -/

theorem splitOnSpaceGo_ne_nil : ∀ cs acc, splitOnSpaceGo cs acc ≠ [] := by
  intro cs
  induction cs with
  | nil => intro acc; simp [splitOnSpaceGo]
  | cons c cs ih =>
    intro acc
    simp only [splitOnSpaceGo]
    split
    · simp
    · exact ih (c :: acc)

theorem wordWrapGo_mem (mw : String → ℚ) (maxWidth : ℚ) :
    ∀ ws : List String, ∀ cur : String, ∀ line ∈ wordWrapGo mw maxWidth ws cur,
      mw line < maxWidth ∨ line = cur ∨ line ∈ ws := by
  intro ws
  induction ws with
  | nil =>
    intro cur line hline
    simp only [wordWrapGo, List.mem_singleton] at hline
    exact Or.inr (Or.inl hline)
  | cons w ws ih =>
    intro cur line hline
    simp only [wordWrapGo] at hline
    split at hline
    · rcases ih (cur ++ " " ++ w) line hline with h | h | h
      · exact Or.inl h
      · rename_i hcond
        exact Or.inl (h ▸ hcond)
      · exact Or.inr (Or.inr (by simp [h]))
    · rcases List.mem_cons.mp hline with h | h
      · exact Or.inr (Or.inl h)
      · rcases ih w line h with h2 | h2 | h2
        · exact Or.inl h2
        · exact Or.inr (Or.inr (by simp [h2]))
        · exact Or.inr (Or.inr (by simp [h2]))

theorem charWrapGo_mem (mw : String → ℚ) (maxWidth : ℚ) :
    ∀ cs : List Char, ∀ temp : String, ∀ line ∈ charWrapGo mw maxWidth cs temp,
      mw line < maxWidth ∨ line = temp ∨ ∃ c : Char, line = String.singleton c := by
  intro cs
  induction cs with
  | nil =>
    intro temp line hline
    simp only [charWrapGo, List.mem_singleton] at hline
    exact Or.inr (Or.inl hline)
  | cons c cs ih =>
    intro temp line hline
    simp only [charWrapGo] at hline
    split at hline
    · rcases ih (temp ++ String.singleton c) line hline with h | h | h
      · exact Or.inl h
      · rename_i hcond
        exact Or.inl (h ▸ hcond)
      · exact Or.inr (Or.inr h)
    · rcases List.mem_cons.mp hline with h | h
      · exact Or.inr (Or.inl h)
      · rcases ih (String.singleton c) line h with h2 | h2 | h2
        · exact Or.inl h2
        · exact Or.inr (Or.inr ⟨c, h2⟩)
        · exact Or.inr (Or.inr h2)

/-- **C7 (amended)**: for a label with inter-word spaces (the split has more
than one token), every produced line either measures strictly under
`maxWidth` or is verbatim one of the label's space-separated tokens — such
an oversized token is emitted as a whole line and *no* character-level
fallback is applied to it in this path; the character-level fallback (used
only for single long tokens) produces lines that all measure within
`maxWidth` provided every single character and the empty string do. -/
theorem wrap_lines_width_discipline (mw : String → ℚ) (maxWidth : ℚ)
    (text : String) (hmulti : (splitOnSpace text).length ≠ 1) :
    (∀ line ∈ wrapLines mw text maxWidth,
      mw line < maxWidth ∨ line ∈ splitOnSpace text) ∧
    ((∀ c : Char, mw (String.singleton c) ≤ maxWidth) → mw "" ≤ maxWidth →
      ∀ t2 : String, ∀ line ∈ charWrap mw maxWidth t2, mw line ≤ maxWidth) := by
  constructor
  · intro line hline
    unfold wrapLines at hline
    rw [if_neg (fun hc => hmulti hc.1)] at hline
    rcases hsp : splitOnSpace text with _ | ⟨w, ws⟩
    · exact absurd hsp (splitOnSpaceGo_ne_nil text.data [])
    · rw [hsp] at hline
      rcases wordWrapGo_mem mw maxWidth ws w line hline with h | h | h
      · exact Or.inl h
      · exact Or.inr (by simp [h])
      · exact Or.inr (by simp [h])
  · intro hchar hempty t2 line hline
    rcases charWrapGo_mem mw maxWidth t2.data "" line hline with h | h | ⟨c, h⟩
    · exact le_of_lt h
    · rw [h]
      exact hempty
    · rw [h]
      exact hchar c

/-- Witness for C7 (amended) on a concrete two-token label. -/
theorem wrap_lines_width_discipline_witness :
    (splitOnSpace "aa bb").length ≠ 1 ∧
    (∀ line ∈ wrapLines (fun s => (s.length : ℚ)) "aa bb" 100,
      (fun s => ((s.length : ℚ))) line < 100 ∨ line ∈ splitOnSpace "aa bb") :=
  ⟨by decide,
    (wrap_lines_width_discipline (fun s => (s.length : ℚ)) 100 "aa bb"
      (by decide)).1⟩

/-- The measured-width function of the C7 counterexample: 10 px per
character. -/
def mwTen (s : String) : ℚ := (s.length : ℚ) * 10

/-- **C7 counterexample**: in the multi-word path the oversized
non-splittable token `abcdefgh` (width 80 > 35) is emitted as a whole
line even though character-level fallback wrapping of that token would
produce lines that all fit within `maxWidth` — contradicting the claim
that a token may exceed `maxWidth` only if it alone is still wider than
`maxWidth` after the character-level fallback has been applied. -/
theorem oversized_token_skips_char_fallback :
    wrapLines mwTen "ab abcdefgh cd" 35 = ["ab", "abcdefgh", "cd"] ∧
    (35 : ℚ) < mwTen "abcdefgh" ∧
    charWrap mwTen 35 "abcdefgh" = ["abc", "def", "gh"] ∧
    (∀ line ∈ charWrap mwTen 35 "abcdefgh", mwTen line ≤ 35) := by
  have hsing : ∀ c : Char, (String.singleton c).length = 1 := fun c => rfl
  have hcw : charWrap mwTen 35 "abcdefgh" = ["abc", "def", "gh"] := by
    norm_num [charWrap, charWrapGo, mwTen, String.length_append, hsing,
      show "abcdefgh".data = ['a', 'b', 'c', 'd', 'e', 'f', 'g', 'h'] from by decide,
      show ("" : String).length = 0 from rfl]
    decide
  have hwl : wrapLines mwTen "ab abcdefgh cd" 35 = ["ab", "abcdefgh", "cd"] := by
    norm_num [wrapLines, wordWrapGo, mwTen, String.length_append,
      show splitOnSpace "ab abcdefgh cd" = ["ab", "abcdefgh", "cd"] from by decide,
      show ("ab" : String).length = 2 from rfl,
      show (" " : String).length = 1 from rfl,
      show ("abcdefgh" : String).length = 8 from rfl,
      show ("cd" : String).length = 2 from rfl,
      show ("ab abcdefgh cd" : String).length = 14 from rfl]
  refine ⟨hwl, by norm_num [mwTen, show ("abcdefgh" : String).length = 8 from rfl],
    hcw, ?_⟩
  rw [hcw]
  intro line hline
  rcases List.mem_cons.mp hline with h | h
  · rw [h]
    norm_num [mwTen, show ("abc" : String).length = 3 from rfl]
  rcases List.mem_cons.mp h with h2 | h2
  · rw [h2]
    norm_num [mwTen, show ("def" : String).length = 3 from rfl]
  rcases List.mem_cons.mp h2 with h3 | h3
  · rw [h3]
    norm_num [mwTen, show ("gh" : String).length = 2 from rfl]
  · simp at h3

/-! ## Claim C10: the provider wrapper never rejects -/

/-- **C10**: every fault path of the bundled wrapper resolves with the empty
three-group object — a primary API rejection whose fallback also rejects, a
missing response text, and an unparsable response (non-retryable parse
error) all yield `{up: [], side: [], down: []}` rather than a rejection —
and a completion fed any resolved result either leaves the toast unchanged
or emits the "nothing found" *warning*: the orchestrator's failure-specific
error-notification branch is unreachable through provider faults. -/
theorem provider_faults_resolve_empty
    (parse : String → Except String AssociationResponse)
    (primary fallback : ProviderOutcome) (e1 e2 : ApiError) (t msg : String)
    (sq : ℚ → ℚ) (place : Nat → Nat → ℚ × ℚ) (s : EngineState)
    (captured : PhysicsNode) (now : Nat) (r : AssociationResponse) :
    (executeCall parse primary = Except.error e1 →
      executeCall parse fallback = Except.error e2 →
      expandBrainstormNode parse primary fallback = ⟨[], [], []⟩) ∧
    (expandBrainstormNode parse (ProviderOutcome.ok none) fallback =
      ⟨[], [], []⟩) ∧
    (parse (cleanResponseText t) = Except.error msg →
      isRetryableError { status := none, message := msg } = false →
      expandBrainstormNode parse (ProviderOutcome.ok (some t)) fallback =
        ⟨[], [], []⟩) ∧
    ((expandNodeComplete sq place s captured (Except.ok r) now).toast = s.toast ∨
      (expandNodeComplete sq place s captured (Except.ok r) now).toast =
        some ⟨"没有联想出新词汇", ToastType.warning⟩) := by
  refine ⟨?_, rfl, ?_, ?_⟩
  · intro h1 h2
    unfold expandBrainstormNode withFallback
    rw [h1, h2]
    by_cases hr : isRetryableError e1 = true
    · simp [hr]
    · simp only [Bool.not_eq_true] at hr
      simp [hr]
  · intro hp hr
    unfold expandBrainstormNode withFallback executeCall
    dsimp only
    rw [hp]
    simp [hr]
  · unfold expandNodeComplete syncNodesToGlobal
    dsimp only
    by_cases hlen : (newNodesData captured.id captured.level now r).length = 0
    · right
      rw [if_pos hlen]
    · left
      rw [if_neg hlen]

/-- Witness for C10: both API calls reject with a non-retryable error. -/
theorem provider_faults_resolve_empty_witness :
    executeCall (fun _ => Except.error "bad json")
        (ProviderOutcome.fail ⟨some 404, "not found"⟩) =
      Except.error ⟨some 404, "not found"⟩ ∧
    expandBrainstormNode (fun _ => Except.error "bad json")
      (ProviderOutcome.fail ⟨some 404, "not found"⟩)
      (ProviderOutcome.fail ⟨some 404, "not found"⟩) = ⟨[], [], []⟩ :=
  ⟨rfl,
    (provider_faults_resolve_empty (fun _ => Except.error "bad json")
      (ProviderOutcome.fail ⟨some 404, "not found"⟩)
      (ProviderOutcome.fail ⟨some 404, "not found"⟩)
      ⟨some 404, "not found"⟩ ⟨some 404, "not found"⟩ "t" "m"
      sqZero placeZero {} default 0 ⟨[], [], []⟩).1 rfl rfl⟩

end CaseCraft
